import Mathlib

/-!
Verification of the hustoj-go-interactive controller (src/cmd/contr/main.go),
the embedded judge payload (src/unnamed/part_000) and the player payload
(src/cmd/player/main.cpp) against its natural-language specification.

The Go controller is shallowly embedded: every fallible kernel operation
(mkdir, file write, mount, spawn, ...) is abstracted by a Bool in an
environment record saying whether that operation succeeds, and the run is
a pure function from the environment to the list of externally visible
actions it performs, in order.  The panic/defer semantics of Go (panic
unwinds and runs deferred calls, log.Fatal exits without running them)
is modelled explicitly, because the cleanup claims depend on it.
-/

namespace Hustoj

/-! ## Go string helpers (strings.TrimSpace, strings.Fields, strings.Split,
strconv.ParseUint, fmt.Sscanf with a %d verb), restricted to ASCII space
characters, which is all the controller ever meets. -/

def isSpaceChar (c : Char) : Bool :=
  c = ' ' || c = '\t' || c = '\n' || c = '\x0b' || c = '\x0c' || c = '\r'

def dropLeadingSpace : List Char → List Char
  | [] => []
  | c :: cs => if isSpaceChar c then dropLeadingSpace cs else c :: cs

/-- Model of strings.TrimSpace: remove leading and trailing whitespace. -/
def trimSpace (s : String) : String :=
  String.mk (dropLeadingSpace ((dropLeadingSpace s.data.reverse).reverse))

/-- Model of strings.Fields: split around runs of whitespace, no empty fields. -/
def fieldsAux (cur : List Char) : List Char → List (List Char)
  | [] => if cur.isEmpty then [] else [cur.reverse]
  | c :: cs =>
    if isSpaceChar c then
      if cur.isEmpty then fieldsAux [] cs else cur.reverse :: fieldsAux [] cs
    else fieldsAux (c :: cur) cs

def goFields (s : String) : List String :=
  (fieldsAux [] s.data).map String.mk

/-- Model of strings.Split(data, newline): keeps empty pieces. -/
def splitLinesAux (cur : List Char) : List Char → List String
  | [] => [String.mk cur.reverse]
  | c :: cs =>
    if c = '\n' then String.mk cur.reverse :: splitLinesAux [] cs
    else splitLinesAux (c :: cur) cs

def goSplitLines (s : String) : List String :=
  splitLinesAux [] s.data

def parseDigitsAux (acc : Nat) : List Char → Option Nat
  | [] => some acc
  | c :: cs => if c.isDigit then parseDigitsAux (acc * 10 + (c.toNat - 48)) cs else none

/-- Value of a nonempty all-digit decimal string, none otherwise. -/
def parseDigits (s : String) : Option Nat :=
  match s.data with
  | [] => none
  | l => parseDigitsAux 0 l

def U64MAX : Nat := 2 ^ 64 - 1

/-- Model of strconv.ParseUint(s, 10, 64) restricted to its success case:
some value for a nonempty digit string below 2^64, none on any error. -/
def parseUint64 (s : String) : Option Nat :=
  match parseDigits s with
  | some v => if v < 2 ^ 64 then some v else none
  | none => none

/-- Model of the value strconv.ParseUint(s, 10, 64) returns even when it also
returns an error: 0 on a syntax error, the 64-bit maximum on overflow. -/
def parseUintGoVal (s : String) : Nat :=
  match parseDigits s with
  | some v => if v < 2 ^ 64 then v else U64MAX
  | none => 0

def takeDigits : List Char → List Char
  | [] => []
  | c :: cs => if c.isDigit then c :: takeDigits cs else []

/-- Model of fmt.Sscanf(s, d-verb, p) with p pointing at a uint64 that was
initialised to 0: skip leading spaces, read the maximal digit prefix; on a
scan failure (no digits, or 64-bit overflow) the target keeps its value 0. -/
def sscanfU64 (s : String) : Nat :=
  match takeDigits (dropLeadingSpace s.data) with
  | [] => 0
  | ds =>
    match parseDigitsAux 0 ds with
    | some v => if v < 2 ^ 64 then v else 0
    | none => 0

/-! ## Go control flow: must, panic and log.Fatal (main.go lines 37-42).

A panic unwinds the goroutine and runs the deferred calls registered so
far; log.Fatal calls os.Exit, which runs no deferred calls.  The source
function must executes panic(err) first, so its log.Fatal line is dead. -/

inductive GoControl where
  | ret
  | panicked (msg : String)
  | fatal (msg : String)
deriving DecidableEq, Repr

/-- Sequencing of two Go statements: once control has escaped by panic or
by a fatal exit, the second statement is not reached. -/
def goSeq (a b : GoControl) : GoControl :=
  match a with
  | .ret => b
  | .panicked m => .panicked m
  | .fatal m => .fatal m

/-- Model of func must(err): on a non-nil error it runs panic(err) and then
(textually) log.Fatal(err); goSeq records that the latter is unreachable. -/
def must (err : Option String) : GoControl :=
  match err with
  | some e => goSeq (.panicked e) (.fatal e)
  | none => .ret

def errIf (ok : Bool) (msg : String) : Option String :=
  if ok then none else some msg

/-! ## Trace model of func main (controller mode, main.go lines 318-440). -/

/-- Externally visible actions of one controller run, in program order. -/
inductive Act where
  | mkdirCgroup (name : String)
  | writeMemMax (name : String)
  | writeCpuMax (name : String)
  | spawn (who : String)
  | verdict (v : String)
  | kill (who : String)
  | waitProc (who : String)
  | readStats (who : String)
  | deleteCgroup (name : String)
deriving DecidableEq, Repr

/-- How a run of main ends, seen from the defer machinery. -/
inductive RunEnd where
  | normal
  | panicked
  | fatalExit
deriving DecidableEq, Repr

/-- Actions performed by a finishing run: deferred calls (already in their
LIFO execution order) run on normal return and on panic, but not on a
fatal exit, which bypasses them via os.Exit. -/
def finishTrace (trace defers : List Act) : RunEnd → List Act
  | .normal => trace ++ defers
  | .panicked => trace ++ defers
  | .fatalExit => trace

/-- Which event wins the select race of main.go lines 392-399: either the
report-channel goroutine delivers the line it read (the controller never
closes its own copy of the report write end, so the read can only return
with a received line), or the timeout fires first. -/
inductive ArbEvent where
  | report (line : String)
  | deadline
deriving DecidableEq, Repr

/-- Success/failure of every fallible setup operation of one run, plus the
outcome of the report/deadline race. -/
structure RunEnv where
  mkdirJudgeOk : Bool
  memJudgeOk : Bool
  cpuJudgeOk : Bool
  mkdirPlayerOk : Bool
  memPlayerOk : Bool
  cpuPlayerOk : Bool
  spawnPlayerOk : Bool
  spawnJudgeOk : Bool
  event : ArbEvent
deriving DecidableEq, Repr

/-- Model of createCgroup (main.go lines 52-68) with both limit strings
nonempty, as main passes them: MkdirAll, then the memory.max write, then
the cpu.max write, each guarded by must.  Returns the actions that took
effect and the control outcome. -/
def createCgroupRun (name : String) (mkOk memOk cpuOk : Bool) : List Act × GoControl :=
  match must (errIf mkOk "mkdir cgroup") with
  | GoControl.ret =>
    match must (errIf memOk "write memory.max") with
    | GoControl.ret =>
      match must (errIf cpuOk "write cpu.max") with
      | GoControl.ret =>
        ([Act.mkdirCgroup name, Act.writeMemMax name, Act.writeCpuMax name], GoControl.ret)
      | c => ([Act.mkdirCgroup name, Act.writeMemMax name], c)
    | c => ([Act.mkdirCgroup name], c)
  | c => ([], c)

/-- The select arm taken by main.go lines 392-399: on a received report the
trimmed line is the verdict and nobody is signalled; on the deadline the
verdict is the literal timeout and both processes get a kill signal. -/
def arbiterSelect : ArbEvent → List Act
  | .report line => [Act.verdict (trimSpace line)]
  | .deadline => [Act.verdict "timeout", Act.kill "judge", Act.kill "player"]

/-- Trace of one controller run (main.go lines 318-440).  Both cgroups are
created before either deferred deleteCgroup is registered (lines 328-331);
the deferred deletions execute in LIFO order; spawn failures abort through
must; after the select race both children are waited on, then the cgroup
stats are read, then the deferred deletions run. -/
def runMain (env : RunEnv) : List Act :=
  match createCgroupRun "guess_judge" env.mkdirJudgeOk env.memJudgeOk env.cpuJudgeOk with
  | (tj, GoControl.ret) =>
    match createCgroupRun "guess_player" env.mkdirPlayerOk env.memPlayerOk env.cpuPlayerOk with
    | (tp, GoControl.ret) =>
      let t0 := tj ++ tp
      let defers := [Act.deleteCgroup "guess_player", Act.deleteCgroup "guess_judge"]
      match must (errIf env.spawnPlayerOk "spawn player") with
      | GoControl.ret =>
        let t1 := t0 ++ [Act.spawn "player"]
        match must (errIf env.spawnJudgeOk "spawn judge") with
        | GoControl.ret =>
          let t2 := t1 ++ [Act.spawn "judge"]
          let t3 := t2 ++ arbiterSelect env.event ++
            [Act.waitProc "judge", Act.waitProc "player",
             Act.readStats "judge", Act.readStats "player"]
          finishTrace t3 defers RunEnd.normal
        | GoControl.panicked _ => finishTrace t1 defers RunEnd.panicked
        | GoControl.fatal _ => finishTrace t1 defers RunEnd.fatalExit
      | GoControl.panicked _ => finishTrace t0 defers RunEnd.panicked
      | GoControl.fatal _ => finishTrace t0 defers RunEnd.fatalExit
    | (tp, _) => tj ++ tp
  | (tj, _) => tj

/-- All eight fallible setup operations of the run succeed. -/
def setupOk (env : RunEnv) : Bool :=
  env.mkdirJudgeOk && env.memJudgeOk && env.cpuJudgeOk &&
  env.mkdirPlayerOk && env.memPlayerOk && env.cpuPlayerOk &&
  env.spawnPlayerOk && env.spawnJudgeOk

/-- Both cgroup creations complete, so both deferred deletions get registered. -/
def createsOk (env : RunEnv) : Bool :=
  env.mkdirJudgeOk && env.memJudgeOk && env.cpuJudgeOk &&
  env.mkdirPlayerOk && env.memPlayerOk && env.cpuPlayerOk

/-! ## Namespace bootstrap (childInit, main.go lines 163-218). -/

structure ChildEnv where
  mountPrivateOk : Bool
  bindRootfsOk : Bool
  mkdirProcOk : Bool
  mkdirOldRootOk : Bool
  pivotOk : Bool
  chdirOk : Bool
  unmountOldOk : Bool
  mountProcOk : Bool
  setgidOk : Bool
  setuidOk : Bool
deriving DecidableEq, Repr

inductive CStep where
  | mountPrivate
  | bindRootfs
  | mkdirProc
  | mkdirOldRoot
  | pivotRoot
  | chdirRoot
  | unmountOldRoot
  | mountProc
  | setgid
  | setuid
deriving DecidableEq, Repr

inductive ChildOutcome where
  | completed
  | aborted (msg : String)
deriving DecidableEq, Repr

/-- One must-guarded bootstrap step: on success record the step and continue
with k, on failure the panic raised inside must aborts the process. -/
def step (ok : Bool) (s : CStep) (msg : String)
    (k : List CStep → ChildOutcome × List CStep) (t : List CStep) :
    ChildOutcome × List CStep :=
  match must (errIf ok msg) with
  | GoControl.ret => k (t ++ [s])
  | GoControl.panicked m => (ChildOutcome.aborted m, t)
  | GoControl.fatal m => (ChildOutcome.aborted m, t)

/-- One bootstrap step whose error the source discards or merely logs:
the step is recorded when it succeeds and execution continues either way. -/
def softStep (ok : Bool) (s : CStep) (t : List CStep) : List CStep :=
  if ok then t ++ [s] else t

/-- Model of childInit (main.go lines 163-218).  The error of the mkdir of
the proc directory (line 179) is discarded, and the error of the bind
mount of /proc (lines 203-208) is only logged; every other step goes
through must and a failure panics the process. -/
def childInit (e : ChildEnv) : ChildOutcome × List CStep :=
  step e.mountPrivateOk CStep.mountPrivate "mount private" (fun t1 =>
    step e.bindRootfsOk CStep.bindRootfs "bind rootfs" (fun t2 =>
      step e.mkdirOldRootOk CStep.mkdirOldRoot "mkdir old_root" (fun t3 =>
        step e.pivotOk CStep.pivotRoot "pivot_root" (fun t4 =>
          step e.chdirOk CStep.chdirRoot "chdir" (fun t5 =>
            step e.unmountOldOk CStep.unmountOldRoot "unmount old_root" (fun t6 =>
              step e.setgidOk CStep.setgid "setgid" (fun t7 =>
                step e.setuidOk CStep.setuid "setuid" (fun t8 =>
                  (ChildOutcome.completed, t8))
                  t7)
                (softStep e.mountProcOk CStep.mountProc t6))
              t5)
            t4)
          t3)
        (softStep e.mkdirProcOk CStep.mkdirProc t2))
      t1)
    []

/-- The eight must-guarded bootstrap steps all succeed (the two proc steps,
whose errors the source ignores, are not among them). -/
def mustStepsOk (e : ChildEnv) : Bool :=
  e.mountPrivateOk && e.bindRootfsOk && e.mkdirOldRootOk && e.pivotOk &&
  e.chdirOk && e.unmountOldOk && e.setgidOk && e.setuidOk

/-- The bootstrap steps that mutate mount state. -/
def isMountStep : CStep → Bool
  | CStep.mountPrivate => true
  | CStep.bindRootfs => true
  | CStep.pivotRoot => true
  | CStep.unmountOldRoot => true
  | CStep.mountProc => true
  | _ => false

/-! ## Bootstrap entrypoint (maybeSandboxInit, main.go lines 221-263). -/

structure BootEnv where
  sandboxInit : String
  rootfs : String
  target : String
  child : ChildEnv
deriving DecidableEq, Repr

inductive BootOutcome where
  | controllerMode
  | abortedParam (msg : String)
  | abortedChild (msg : String)
  | execedTarget (path : String)
deriving DecidableEq, Repr

/-- Model of maybeSandboxInit: without the marker the process returns to
controller logic; with the marker, a missing rootfs or target panics
before childInit runs; otherwise childInit runs and on completion the
process image is replaced by the target.  The second component is the
list of bootstrap steps that took effect. -/
def maybeSandboxInit (b : BootEnv) : BootOutcome × List CStep :=
  if b.sandboxInit ≠ "1" then (BootOutcome.controllerMode, [])
  else if b.rootfs = "" then (BootOutcome.abortedParam "SANDBOX_ROOTFS missing", [])
  else if b.target = "" then (BootOutcome.abortedParam "SANDBOX_TARGET missing", [])
  else
    match childInit b.child with
    | (ChildOutcome.completed, t) => (BootOutcome.execedTarget b.target, t)
    | (ChildOutcome.aborted m, t) => (BootOutcome.abortedChild m, t)

/-! ## Pipe endpoint ownership (main.go lines 336-348 and 266-278). -/

inductive PipeFD where
  | judgeToPlayerR
  | judgeToPlayerW
  | playerToJudgeR
  | playerToJudgeW
  | reportR
  | reportW
deriving DecidableEq, Repr

def allPipeFDs : List PipeFD :=
  [PipeFD.judgeToPlayerR, PipeFD.judgeToPlayerW, PipeFD.playerToJudgeR,
   PipeFD.playerToJudgeW, PipeFD.reportR, PipeFD.reportW]

structure FDState where
  controllerOpen : List PipeFD
  playerInherited : List PipeFD
  judgeInherited : List PipeFD
deriving DecidableEq, Repr

/-- Model of spawnSandbox (lines 266-278) at the file-descriptor level:
exec.Cmd duplicates the stdin, stdout and extra files into the child; the
parent keeps its own copies open, and main.go contains no Close call on
any pipe end. -/
def spawnSandboxFDs (parentOpen : List PipeFD) (stdin stdout : PipeFD)
    (extra : List PipeFD) : List PipeFD × List PipeFD :=
  (parentOpen, stdin :: stdout :: extra)

/-- Endpoint state after both spawns in main (lines 336-348): three pipes
are created, the player inherits the judge-to-player read end and the
player-to-judge write end, the judge inherits the player-to-judge read
end, the judge-to-player write end and the report write end. -/
def mainFDState : FDState :=
  let open0 := allPipeFDs
  let s1 := spawnSandboxFDs open0 PipeFD.judgeToPlayerR PipeFD.playerToJudgeW []
  let s2 := spawnSandboxFDs s1.1 PipeFD.playerToJudgeR PipeFD.judgeToPlayerW [PipeFD.reportW]
  { controllerOpen := s2.1, playerInherited := s1.2, judgeInherited := s2.2 }

/-! ## Cgroup statistics (getCgroupStats, main.go lines 82-139).

The filesystem below one cgroup directory is abstracted by the contents
of the four files getCgroupStats reads; none stands for a missing or
unreadable file. -/

structure CgroupStats where
  MemoryPeakBytes : Nat
  CPUUsageUser : Nat
  CPUUsageSystem : Nat
deriving DecidableEq, Repr

structure CgroupFS where
  memoryPeak : Option String
  memoryCurrent : Option String
  memoryStat : Option String
  cpuStat : Option String
deriving DecidableEq, Repr

/-- One line of the memory.stat loop (main.go lines 100-118): on a line of
exactly two fields whose value parses, each of the four keys in turn may
raise the running peak. -/
def statLineUpdate (acc : Nat) (line : String) : Nat :=
  match goFields line with
  | [k, v] =>
    match parseUint64 v with
    | some val =>
      let a1 := if k = "file" ∧ val > acc then val else acc
      let a2 := if k = "anon" ∧ val > a1 then val else a1
      let a3 := if k = "rss" ∧ val > a2 then val else a2
      if k = "shmem" ∧ val > a3 then val else a3
    | none => acc
  | _ => acc

/-- One line of the cpu.stat loop (main.go lines 124-135): user_usec and
system_usec lines overwrite the respective counter with the ParseUint
result, whose error is discarded. -/
def cpuLineUpdate (st : Nat × Nat) (line : String) : Nat × Nat :=
  match goFields line with
  | [k, v] =>
    if k = "user_usec" then (parseUintGoVal v, st.2)
    else if k = "system_usec" then (st.1, parseUintGoVal v)
    else st
  | _ => st

/-- Model of getCgroupStats: memory.peak is trimmed and scanned (a missing
file leaves 0), the memory.stat lines may raise the peak, the cpu.stat
lines set the two CPU counters; the memory.current read only logs. -/
def getCgroupStats (fs : CgroupFS) : CgroupStats :=
  let peak0 : Nat :=
    match fs.memoryPeak with
    | some data => sscanfU64 (trimSpace data)
    | none => 0
  let peak1 : Nat :=
    match fs.memoryStat with
    | some data => (goSplitLines data).foldl statLineUpdate peak0
    | none => peak0
  let cpu : Nat × Nat :=
    match fs.cpuStat with
    | some data => (goSplitLines data).foldl cpuLineUpdate (0, 0)
    | none => (0, 0)
  { MemoryPeakBytes := peak1, CPUUsageUser := cpu.1, CPUUsageSystem := cpu.2 }

/-! Specification-side reading of the same files, phrased as the spec does:
the peak is the maximum of the kernel peak counter and the file, anon,
rss and shmem entries of the breakdown file; the CPU counters come from
the CPU accounting file; a missing file yields zero. -/

/-- Value of one breakdown line for a given key, if it is such a line. -/
def statLineVal (key : String) (line : String) : Option Nat :=
  match goFields line with
  | [k, v] => if k = key then parseUint64 v else none
  | _ => none

/-- Largest well-formed entry of the breakdown file for one key (0 when the
file is missing or has no such entry). -/
def entryMax (fs : CgroupFS) (key : String) : Nat :=
  match fs.memoryStat with
  | some data => ((goSplitLines data).filterMap (statLineVal key)).foldl max 0
  | none => 0

/-- The kernel peak counter (0 when its file is missing). -/
def kernelPeak (fs : CgroupFS) : Nat :=
  match fs.memoryPeak with
  | some data => sscanfU64 (trimSpace data)
  | none => 0

/-- Value carried by one CPU accounting line for a given key. -/
def cpuLineVal (key : String) (line : String) : Option Nat :=
  match goFields line with
  | [k, v] => if k = key then some (parseUintGoVal v) else none
  | _ => none

/-- The CPU counter for one key: the last matching line of the accounting
file wins, 0 when the file is missing or has no such line. -/
def cpuCounter (fs : CgroupFS) (key : String) : Nat :=
  match fs.cpuStat with
  | some data => (((goSplitLines data).filterMap (cpuLineVal key)).getLast?).getD 0
  | none => 0

/-- The statistics as the specification words them. -/
def specStats (fs : CgroupFS) : CgroupStats :=
  { MemoryPeakBytes :=
      max (kernelPeak fs)
        (max (entryMax fs "file")
          (max (entryMax fs "anon")
            (max (entryMax fs "rss") (entryMax fs "shmem")))),
    CPUUsageUser := cpuCounter fs "user_usec",
    CPUUsageSystem := cpuCounter fs "system_usec" }

/-- Combined per-line contribution to the peak, one value per breakdown key. -/
def statContrib (line : String) : Nat :=
  max ((statLineVal "file" line).getD 0)
    (max ((statLineVal "anon" line).getD 0)
      (max ((statLineVal "rss" line).getD 0) ((statLineVal "shmem" line).getD 0)))

/-- First component of one cpu.stat loop iteration. -/
def uStep (a : Nat) (line : String) : Nat :=
  match cpuLineVal "user_usec" line with
  | some v => v
  | none => a

/-- Second component of one cpu.stat loop iteration. -/
def sStep (a : Nat) (line : String) : Nat :=
  match cpuLineVal "system_usec" line with
  | some v => v
  | none => a

/-! ## Resource monitor and final merge (main.go lines 356-383, 407-415). -/

/-- One sampler tick for one cgroup: read memory.current (skipped when the
file is unreadable), scan the value, keep the running maximum. -/
def monitorStep (acc : Nat) (reading : Option String) : Nat :=
  match reading with
  | some data => let val := sscanfU64 data; if val > acc then val else acc
  | none => acc

/-- The accumulator of the sampler goroutine after a run whose successive
memory.current reads are the given list. -/
def monitorPeak (reads : List (Option String)) : Nat :=
  reads.foldl monitorStep 0

/-- The merge of main.go lines 410-415: the sampled maximum replaces the
kernel statistics peak only when it is larger. -/
def mergePeak (sampled : Nat) (stats : CgroupStats) : CgroupStats :=
  if sampled > stats.MemoryPeakBytes then { stats with MemoryPeakBytes := sampled } else stats

/-! ## The guessing-game payloads.

Synchronous composition of the judge loop (src/unnamed/part_000, lines
21-41: at most 10 reads, fixed secret, responses too-small / too-large /
correct, one JSON report on fd 3) with the player loop
(src/cmd/player/main.cpp, lines 16-36: binary search, guesses the mean of
low and high, adjusts the bracket on each response, stops when the
bracket is empty or on a correct response).  Each judge round consumes
exactly one player guess; if the player bracket is empty the player has
exited and the judge read fails, which the judge reports as RE. -/

def reportAC : String := "\x7b\"status\":\"AC\"\x7d"

def reportWA : String := "\x7b\"status\":\"WA\",\"reason\":\"limit\"\x7d"

def reportRE : String := "\x7b\"status\":\"RE\",\"reason\":\"bad input\"\x7d"

/-- gameRun secret fuel low high = (report line the judge writes to fd 3,
number of guesses the player issued).  fuel is the number of judge rounds
still allowed (10 at the start). -/
def gameRun (secret : Int) : Nat → Int → Int → String × Nat
  | 0, _, _ => (reportWA, 0)
  | n + 1, low, high =>
    if low > high then (reportRE, 0)
    else
      let mid := (low + high) / 2
      if mid < secret then
        let r := gameRun secret n (mid + 1) high
        (r.1, r.2 + 1)
      else if mid > secret then
        let r := gameRun secret n low (mid - 1)
        (r.1, r.2 + 1)
      else (reportAC, 1)

/-! ## Concrete environments used by witnesses and counterexamples. -/

def envAllOkDeadline : RunEnv :=
  ⟨true, true, true, true, true, true, true, true, ArbEvent.deadline⟩

def envAllOkReport : RunEnv :=
  ⟨true, true, true, true, true, true, true, true, ArbEvent.report "AC\n"⟩

def envPlayerCgroupFails : RunEnv :=
  ⟨true, true, true, false, true, true, true, true, ArbEvent.deadline⟩

def envSpawnJudgeFails : RunEnv :=
  ⟨true, true, true, true, true, true, true, false, ArbEvent.deadline⟩

def childEnvAllOk : ChildEnv :=
  ⟨true, true, true, true, true, true, true, true, true, true⟩

def childEnvProcMountFails : ChildEnv :=
  ⟨true, true, true, true, true, true, true, false, true, true⟩

def bootEnvMissingRootfs : BootEnv :=
  ⟨"1", "", "/bin/judge", childEnvAllOk⟩

def fsAllMissing : CgroupFS :=
  ⟨none, none, none, none⟩

/-! ## General fold lemmas. -/

theorem foldl_max_shift {α : Type} (g : α → Nat) (xs : List α) : ∀ p : Nat,
    xs.foldl (fun a x => max a (g x)) p
      = max p (xs.foldl (fun a x => max a (g x)) 0) := by
  induction xs with
  | nil => intro p; simp
  | cons x xs ih =>
    intro p
    simp only [List.foldl_cons]
    rw [ih (max p (g x)), ih (max 0 (g x))]
    rw [Nat.zero_max (g x)]
    rw [max_assoc p (g x) (xs.foldl (fun a x => max a (g x)) 0)]

theorem foldl_max_split {α : Type} (g1 g2 : α → Nat) (xs : List α) : ∀ p q : Nat,
    xs.foldl (fun a x => max a (max (g1 x) (g2 x))) (max p q)
      = max (xs.foldl (fun a x => max a (g1 x)) p)
                (xs.foldl (fun a x => max a (g2 x)) q) := by
  induction xs with
  | nil => intro p q; simp
  | cons x xs ih =>
    intro p q
    simp only [List.foldl_cons]
    have h : max (max p q) (max (g1 x) (g2 x))
        = max (max p (g1 x)) (max q (g2 x)) := by
      rw [max_assoc p q (max (g1 x) (g2 x)),
        ← max_assoc q (g1 x) (g2 x),
        max_comm q (g1 x),
        max_assoc (g1 x) q (g2 x),
        ← max_assoc p (g1 x) (max q (g2 x))]
    rw [h, ih]

theorem foldl_max_filterMap {α : Type} (f : α → Option Nat) (xs : List α) : ∀ p : Nat,
    xs.foldl (fun a x => max a ((f x).getD 0)) p
      = (xs.filterMap f).foldl max p := by
  induction xs with
  | nil => intro p; simp
  | cons x xs ih =>
    intro p
    simp only [List.foldl_cons, List.filterMap_cons]
    cases hfx : f x with
    | none => simpa using ih p
    | some v => simpa using ih (max p v)

theorem foldl_prod {α : Type} (f g : Nat → α → Nat) (xs : List α) : ∀ a b : Nat,
    xs.foldl (fun st x => (f st.1 x, g st.2 x)) (a, b)
      = (xs.foldl f a, xs.foldl g b) := by
  induction xs with
  | nil => intro a b; simp
  | cons x xs ih => intro a b; simpa using ih (f a x) (g b x)

theorem getLast_getD_cons : ∀ (l : List Nat) (v a : Nat),
    ((v :: l).getLast?).getD a = (l.getLast?).getD v := by
  intro l
  induction l with
  | nil => intro v a; rfl
  | cons w l ih =>
    intro v a
    rw [List.getLast?_cons_cons]
    rw [ih w a, ih w v]

theorem foldl_last_wins {α : Type} (f : α → Option Nat) (xs : List α) : ∀ a : Nat,
    xs.foldl (fun acc x => match f x with | some v => v | none => acc) a
      = ((xs.filterMap f).getLast?).getD a := by
  induction xs with
  | nil => intro a; rfl
  | cons x xs ih =>
    intro a
    simp only [List.foldl_cons, List.filterMap_cons]
    cases hfx : f x with
    | none => simpa using ih a
    | some v =>
      rw [getLast_getD_cons]
      simpa using ih v

/-! ## The memory.stat loop computes the maximum of the four entries. -/

theorem ite_gt_max (acc val : Nat) : (if acc < val then val else acc) = max acc val := by
  rcases le_or_lt val acc with h | h
  · rw [if_neg (by omega), max_eq_left h]
  · rw [if_pos h, max_eq_right h.le]

theorem statLineUpdate_eq (acc : Nat) (line : String) :
    statLineUpdate acc line = max acc (statContrib line) := by
  unfold statLineUpdate statContrib statLineVal
  cases hgf : goFields line with
  | nil => simp [Nat.max_zero]
  | cons k rest =>
    cases rest with
    | nil => simp [Nat.max_zero]
    | cons v rest2 =>
      cases rest2 with
      | cons w rest3 => simp [Nat.max_zero]
      | nil =>
        cases hpv : parseUint64 v with
        | none => simp [hpv, Nat.max_zero]
        | some val =>
          simp only [hpv]
          have hfa : ("file" : String) ≠ "anon" := by decide
          have hfr : ("file" : String) ≠ "rss" := by decide
          have hfs : ("file" : String) ≠ "shmem" := by decide
          have har : ("anon" : String) ≠ "rss" := by decide
          have has : ("anon" : String) ≠ "shmem" := by decide
          have hrs : ("rss" : String) ≠ "shmem" := by decide
          by_cases hf : k = "file"
          · subst hf
            simp [hfa, hfr, hfs, Nat.max_zero, Nat.zero_max]
            exact ite_gt_max acc val
          · by_cases ha : k = "anon"
            · subst ha
              simp [Ne.symm hfa, har, has, Nat.max_zero, Nat.zero_max]
              exact ite_gt_max acc val
            · by_cases hr : k = "rss"
              · subst hr
                simp [Ne.symm hfr, Ne.symm har, hrs, Nat.max_zero, Nat.zero_max]
                exact ite_gt_max acc val
              · by_cases hs : k = "shmem"
                · subst hs
                  simp [Ne.symm hfs, Ne.symm has, Ne.symm hrs, Nat.max_zero, Nat.zero_max]
                  exact ite_gt_max acc val
                · simp [hf, ha, hr, hs, Nat.max_zero]

theorem foldl_statContrib (xs : List String) :
    xs.foldl (fun a l => max a (statContrib l)) 0
      = max (xs.foldl (fun a l => max a ((statLineVal "file" l).getD 0)) 0)
          (max (xs.foldl (fun a l => max a ((statLineVal "anon" l).getD 0)) 0)
            (max (xs.foldl (fun a l => max a ((statLineVal "rss" l).getD 0)) 0)
              (xs.foldl (fun a l => max a ((statLineVal "shmem" l).getD 0)) 0))) := by
  have h34 := foldl_max_split (fun l => (statLineVal "rss" l).getD 0)
      (fun l => (statLineVal "shmem" l).getD 0) xs 0 0
  have h234 := foldl_max_split (fun l => (statLineVal "anon" l).getD 0)
      (fun l => max ((statLineVal "rss" l).getD 0) ((statLineVal "shmem" l).getD 0)) xs 0 0
  have h1234 := foldl_max_split (fun l => (statLineVal "file" l).getD 0)
      (fun l => max ((statLineVal "anon" l).getD 0)
        (max ((statLineVal "rss" l).getD 0) ((statLineVal "shmem" l).getD 0))) xs 0 0
  simp only [max_self] at h34 h234 h1234
  calc xs.foldl (fun a l => max a (statContrib l)) 0
      = xs.foldl (fun a l => max a (max ((statLineVal "file" l).getD 0)
          (max ((statLineVal "anon" l).getD 0)
            (max ((statLineVal "rss" l).getD 0) ((statLineVal "shmem" l).getD 0))))) 0 := by
        simp only [statContrib]
    _ = _ := by rw [h1234, h234, h34]

/-- The memory.stat fold of getCgroupStats equals the maximum of the start
value and the four per-key entry maxima, phrased over filtered entries. -/
theorem statFold_eq (p : Nat) (lines : List String) :
    lines.foldl statLineUpdate p
      = max p (max ((lines.filterMap (statLineVal "file")).foldl max 0)
          (max ((lines.filterMap (statLineVal "anon")).foldl max 0)
            (max ((lines.filterMap (statLineVal "rss")).foldl max 0)
              ((lines.filterMap (statLineVal "shmem")).foldl max 0)))) := by
  have hupd : statLineUpdate = fun acc line => max acc (statContrib line) := by
    funext acc line
    exact statLineUpdate_eq acc line
  rw [hupd, foldl_max_shift statContrib lines p, foldl_statContrib,
    foldl_max_filterMap (statLineVal "file") lines 0,
    foldl_max_filterMap (statLineVal "anon") lines 0,
    foldl_max_filterMap (statLineVal "rss") lines 0,
    foldl_max_filterMap (statLineVal "shmem") lines 0]

/-! ## The cpu.stat loop keeps the last matching line of each counter. -/

theorem cpuLineUpdate_eq (st : Nat × Nat) (line : String) :
    cpuLineUpdate st line = (uStep st.1 line, sStep st.2 line) := by
  unfold cpuLineUpdate uStep sStep cpuLineVal
  cases hgf : goFields line with
  | nil => simp
  | cons k rest =>
    cases rest with
    | nil => simp
    | cons v rest2 =>
      cases rest2 with
      | cons w rest3 => simp
      | nil =>
        have hus : ("user_usec" : String) ≠ "system_usec" := by decide
        by_cases hu : k = "user_usec"
        · subst hu
          simp [hus]
        · by_cases hs : k = "system_usec"
          · subst hs
            simp [hu]
          · simp [hu, hs]

theorem cpuFold_eq (lines : List String) :
    lines.foldl cpuLineUpdate (0, 0)
      = ((((lines.filterMap (cpuLineVal "user_usec")).getLast?).getD 0),
         (((lines.filterMap (cpuLineVal "system_usec")).getLast?).getD 0)) := by
  have hupd : cpuLineUpdate = fun st line => (uStep st.1 line, sStep st.2 line) := by
    funext st line
    exact cpuLineUpdate_eq st line
  have hu : uStep = fun acc x =>
      match cpuLineVal "user_usec" x with
      | some v => v
      | none => acc := rfl
  have hs : sStep = fun acc x =>
      match cpuLineVal "system_usec" x with
      | some v => v
      | none => acc := rfl
  rw [hupd, foldl_prod uStep sStep lines 0 0, hu, hs,
    foldl_last_wins (cpuLineVal "user_usec") lines 0,
    foldl_last_wins (cpuLineVal "system_usec") lines 0]

/-- getCgroupStats computes exactly the statistics the specification words
describe. -/
theorem getCgroupStats_eq (fs : CgroupFS) : getCgroupStats fs = specStats fs := by
  obtain ⟨mp, mc, ms, cs⟩ := fs
  unfold getCgroupStats specStats entryMax kernelPeak cpuCounter
  cases ms <;> cases cs <;>
    simp only [statFold_eq, cpuFold_eq] <;>
    simp [Nat.max_zero]

/-- Both deferred cgroup deletions are in the trace of every run in which
both cgroup creations completed, whatever happens afterwards. -/
theorem deletes_run_of_creates (env : RunEnv) (h : createsOk env = true) :
    Act.deleteCgroup "guess_judge" ∈ runMain env
    ∧ Act.deleteCgroup "guess_player" ∈ runMain env := by
  obtain ⟨a, b, c, d, e, f, g, h2, ev⟩ := env
  simp only [createsOk, Bool.and_eq_true] at h
  obtain ⟨⟨⟨⟨⟨ha, hb⟩, hc⟩, hd⟩, he⟩, hf⟩ := h
  subst ha hb hc hd he hf
  cases g <;> cases h2 <;> cases ev <;>
    simp [runMain, createCgroupRun, must, errIf, goSeq, arbiterSelect, finishTrace]

/-! ## Claims. -/

/-- C1: for every run in which no newline-terminated line arrives on the
report channel before the deadline (and setup succeeded, so the race is
reached), the trace is exactly: both cgroups set up, both children
spawned, the literal timeout verdict, a kill signal to the judge and to
the player, then the unconditional waits on both processes, then the
statistics reads, then the deferred cgroup deletions.  In particular both
processes are reaped before any statistics collection. -/
theorem timeout_path (env : RunEnv) (hok : setupOk env = true)
    (hev : env.event = ArbEvent.deadline) :
    runMain env =
      [Act.mkdirCgroup "guess_judge", Act.writeMemMax "guess_judge", Act.writeCpuMax "guess_judge",
       Act.mkdirCgroup "guess_player", Act.writeMemMax "guess_player", Act.writeCpuMax "guess_player",
       Act.spawn "player", Act.spawn "judge",
       Act.verdict "timeout", Act.kill "judge", Act.kill "player",
       Act.waitProc "judge", Act.waitProc "player",
       Act.readStats "judge", Act.readStats "player",
       Act.deleteCgroup "guess_player", Act.deleteCgroup "guess_judge"] := by
  obtain ⟨a, b, c, d, e, f, g, h, ev⟩ := env
  simp only [setupOk, Bool.and_eq_true] at hok
  obtain ⟨⟨⟨⟨⟨⟨⟨ha, hb⟩, hc⟩, hd⟩, he⟩, hf⟩, hg⟩, hh⟩ := hok
  subst ha hb hc hd he hf hg hh
  cases ev with
  | deadline => rfl
  | report l => simp at hev

/-- C1 witness: the timeout trace of the concrete all-success run. -/
theorem timeout_path_witness :
    runMain envAllOkDeadline =
      [Act.mkdirCgroup "guess_judge", Act.writeMemMax "guess_judge", Act.writeCpuMax "guess_judge",
       Act.mkdirCgroup "guess_player", Act.writeMemMax "guess_player", Act.writeCpuMax "guess_player",
       Act.spawn "player", Act.spawn "judge",
       Act.verdict "timeout", Act.kill "judge", Act.kill "player",
       Act.waitProc "judge", Act.waitProc "player",
       Act.readStats "judge", Act.readStats "player",
       Act.deleteCgroup "guess_player", Act.deleteCgroup "guess_judge"] :=
  timeout_path envAllOkDeadline rfl rfl

/-- C2: for every run in which the judge delivers a newline-terminated line
on the report channel within the deadline, the verdict is exactly that
line trimmed of surrounding whitespace, and no kill signal appears in the
trace for either process. -/
theorem report_path (env : RunEnv) (line : String) (hok : setupOk env = true)
    (hev : env.event = ArbEvent.report line) :
    runMain env =
      [Act.mkdirCgroup "guess_judge", Act.writeMemMax "guess_judge", Act.writeCpuMax "guess_judge",
       Act.mkdirCgroup "guess_player", Act.writeMemMax "guess_player", Act.writeCpuMax "guess_player",
       Act.spawn "player", Act.spawn "judge",
       Act.verdict (trimSpace line),
       Act.waitProc "judge", Act.waitProc "player",
       Act.readStats "judge", Act.readStats "player",
       Act.deleteCgroup "guess_player", Act.deleteCgroup "guess_judge"]
    ∧ Act.kill "judge" ∉ runMain env ∧ Act.kill "player" ∉ runMain env := by
  obtain ⟨a, b, c, d, e, f, g, h, ev⟩ := env
  simp only [setupOk, Bool.and_eq_true] at hok
  obtain ⟨⟨⟨⟨⟨⟨⟨ha, hb⟩, hc⟩, hd⟩, he⟩, hf⟩, hg⟩, hh⟩ := hok
  subst ha hb hc hd he hf hg hh
  cases ev with
  | deadline => simp at hev
  | report l =>
    have hl : l = line := by simpa using hev
    subst hl
    refine ⟨rfl, ?_, ?_⟩ <;>
      simp [runMain, createCgroupRun, must, errIf, arbiterSelect, finishTrace]

/-- C2 witness: the report trace of the concrete run receiving the line AC
followed by a newline; the verdict is the trimmed line AC and no kill
action occurs. -/
theorem report_path_witness :
    runMain envAllOkReport =
      [Act.mkdirCgroup "guess_judge", Act.writeMemMax "guess_judge", Act.writeCpuMax "guess_judge",
       Act.mkdirCgroup "guess_player", Act.writeMemMax "guess_player", Act.writeCpuMax "guess_player",
       Act.spawn "player", Act.spawn "judge",
       Act.verdict "AC",
       Act.waitProc "judge", Act.waitProc "player",
       Act.readStats "judge", Act.readStats "player",
       Act.deleteCgroup "guess_player", Act.deleteCgroup "guess_judge"]
    ∧ Act.kill "judge" ∉ runMain envAllOkReport
    ∧ Act.kill "player" ∉ runMain envAllOkReport := by
  have h := report_path envAllOkReport "AC\n" rfl rfl
  have ht : trimSpace "AC\n" = "AC" := by decide
  rw [ht] at h
  exact h

/-- C3 counterexample: when the creation of the player cgroup fails, the run
panics before either deferred deletion was registered, so the judge cgroup
directory, although created, is never deleted: cleanup is not
unconditional for failures during cgroup creation itself. -/
theorem cgroup_leak_cex :
    Act.mkdirCgroup "guess_judge" ∈ runMain envPlayerCgroupFails
    ∧ Act.deleteCgroup "guess_judge" ∉ runMain envPlayerCgroupFails := by decide

/-- C3 amended: once both cgroup creations have completed, so both deferred
deletions are registered, every path of the run — received report,
timeout, or a later setup failure such as a failed spawn — deletes both
cgroup directories before the run returns; a failure during cgroup
creation itself can leak an already created directory. -/
theorem cgroup_cleanup_after_registration (env : RunEnv) (h : createsOk env = true) :
    Act.deleteCgroup "guess_judge" ∈ runMain env
    ∧ Act.deleteCgroup "guess_player" ∈ runMain env :=
  deletes_run_of_creates env h

/-- C3 witness: both deletions occur on the concrete all-success timeout run. -/
theorem cgroup_cleanup_witness :
    Act.deleteCgroup "guess_judge" ∈ runMain envAllOkDeadline
    ∧ Act.deleteCgroup "guess_player" ∈ runMain envAllOkDeadline :=
  cgroup_cleanup_after_registration envAllOkDeadline rfl

/-- C4: the judge with secret 731 and at most 10 rounds, composed with the
binary-search player over the bracket 1..1000, reaches the matching guess
at exactly the tenth round, the judge reports the AC status line, and the
arbiter turns that report into the AC verdict, which is not the timeout
verdict. -/
theorem guessing_game_ac :
    gameRun 731 10 1 1000 = (reportAC, 10)
    ∧ (gameRun 731 10 1 1000).2 ≤ 10
    ∧ arbiterSelect (ArbEvent.report (reportAC ++ "\n")) = [Act.verdict reportAC]
    ∧ reportAC ≠ "timeout" := by decide

/-- C5 counterexample: with every step succeeding except the bind mount of
proc (step 7), the bootstrap does not abort: it completes, and the
privilege-drop steps after the failed mount still execute, so a step 7
failure is neither fatal nor free of partial continuation. -/
theorem procmount_nonfatal_cex :
    (childInit childEnvProcMountFails).1 = ChildOutcome.completed
    ∧ CStep.setgid ∈ (childInit childEnvProcMountFails).2
    ∧ CStep.setuid ∈ (childInit childEnvProcMountFails).2
    ∧ CStep.mountProc ∉ (childInit childEnvProcMountFails).2 := by decide

/-- C5 amended: the bootstrap completes exactly when the eight must-guarded
steps (private mount, rootfs bind, old_root mkdir, pivot, chdir, old_root
unmount, setgid, setuid) all succeed: the failure of any of those aborts
the process, while a failure of the proc mkdir or of the proc bind mount
(step 7) is logged and the bootstrap continues. -/
theorem childInit_fatal_steps (e : ChildEnv) :
    (childInit e).1 = ChildOutcome.completed ↔ mustStepsOk e = true := by
  obtain ⟨a, b, c, d, e1, f, g, h, i, j⟩ := e
  cases a <;> cases b <;> cases c <;> cases d <;> cases e1 <;>
    cases f <;> cases g <;> cases h <;> cases i <;> cases j <;> decide

/-- C6: getCgroupStats returns the peak memory equal to the maximum of the
kernel peak counter and the file, anon, rss and shmem entries of the
memory breakdown file, reads the user and system CPU microsecond counters
from the CPU accounting file, and yields zero for any field whose file is
missing, for every filesystem state. -/
theorem cgroup_stats_spec (fs : CgroupFS) :
    getCgroupStats fs = specStats fs
    ∧ (fs.memoryPeak = none → kernelPeak fs = 0)
    ∧ (fs.memoryStat = none → ∀ k, entryMax fs k = 0)
    ∧ (fs.cpuStat = none →
        cpuCounter fs "user_usec" = 0 ∧ cpuCounter fs "system_usec" = 0) := by
  refine ⟨getCgroupStats_eq fs, ?_, ?_, ?_⟩
  · intro h
    simp [kernelPeak, h]
  · intro h k
    simp [entryMax, h]
  · intro h
    constructor <;> simp [cpuCounter, h]

/-- C6 witness: the statistics of the filesystem with every file missing. -/
theorem cgroup_stats_spec_witness :
    getCgroupStats fsAllMissing = specStats fsAllMissing
    ∧ kernelPeak fsAllMissing = 0
    ∧ entryMax fsAllMissing "file" = 0
    ∧ cpuCounter fsAllMissing "user_usec" = 0 ∧ cpuCounter fsAllMissing "system_usec" = 0 := by
  obtain ⟨h1, h2, h3, h4⟩ := cgroup_stats_spec fsAllMissing
  exact ⟨h1, h2 rfl, h3 rfl "file", (h4 rfl).1, (h4 rfl).2⟩

/-- C7: for each sandbox the final reported peak is the maximum of the
sampled peak and the kernel statistics peak, hence at least each of the
two, for any sequence of sampler reads and any cgroup filesystem state of
the judge and of the player. -/
theorem final_peak_merge (judgeReads playerReads : List (Option String))
    (jfs pfs : CgroupFS) :
    ((mergePeak (monitorPeak judgeReads) (getCgroupStats jfs)).MemoryPeakBytes
        = max (monitorPeak judgeReads) ((getCgroupStats jfs).MemoryPeakBytes)
      ∧ monitorPeak judgeReads
          ≤ (mergePeak (monitorPeak judgeReads) (getCgroupStats jfs)).MemoryPeakBytes
      ∧ (getCgroupStats jfs).MemoryPeakBytes
          ≤ (mergePeak (monitorPeak judgeReads) (getCgroupStats jfs)).MemoryPeakBytes)
    ∧ ((mergePeak (monitorPeak playerReads) (getCgroupStats pfs)).MemoryPeakBytes
        = max (monitorPeak playerReads) ((getCgroupStats pfs).MemoryPeakBytes)
      ∧ monitorPeak playerReads
          ≤ (mergePeak (monitorPeak playerReads) (getCgroupStats pfs)).MemoryPeakBytes
      ∧ (getCgroupStats pfs).MemoryPeakBytes
          ≤ (mergePeak (monitorPeak playerReads) (getCgroupStats pfs)).MemoryPeakBytes) := by
  have key : ∀ (s : Nat) (st : CgroupStats),
      (mergePeak s st).MemoryPeakBytes = max s st.MemoryPeakBytes := by
    intro s st
    unfold mergePeak
    rcases le_or_lt s st.MemoryPeakBytes with h | h
    · rw [if_neg (by omega), max_eq_right h]
    · rw [if_pos h]
      simp [max_eq_left h.le]
  refine ⟨⟨key _ _, ?_, ?_⟩, key _ _, ?_, ?_⟩
  · rw [key]
    exact le_max_left _ _
  · rw [key]
    exact le_max_right _ _
  · rw [key]
    exact le_max_left _ _
  · rw [key]
    exact le_max_right _ _

/-- C8 counterexample: after both spawns the judge-to-player read end was
handed to the player and yet remains open in the controller, and the
controller retains far more than the report read end: ownership of pipe
endpoints is not exclusive because the controller closes nothing. -/
theorem fd_ownership_cex :
    PipeFD.judgeToPlayerR ∈ mainFDState.playerInherited
    ∧ PipeFD.judgeToPlayerR ∈ mainFDState.controllerOpen
    ∧ mainFDState.controllerOpen ≠ [PipeFD.reportR] := by decide

/-- C8 amended: the children inherit exactly the wired endpoints (the player
the judge-to-player read end and the player-to-judge write end, the judge
the player-to-judge read end, the judge-to-player write end and the
report write end), but the controller closes no endpoint: all six pipe
ends stay open in the controller after both spawns. -/
theorem fd_ownership_actual :
    mainFDState =
      { controllerOpen := allPipeFDs,
        playerInherited := [PipeFD.judgeToPlayerR, PipeFD.playerToJudgeW],
        judgeInherited := [PipeFD.playerToJudgeR, PipeFD.judgeToPlayerW, PipeFD.reportW] } := by
  rfl

/-- C9: in bootstrap mode a missing rootfs parameter or a missing target
parameter panics the process before childInit runs: the outcome is a
parameter abort and no bootstrap step, in particular no mount operation,
takes effect. -/
theorem boot_param_abort (b : BootEnv) (hmode : b.sandboxInit = "1")
    (hmiss : b.rootfs = "" ∨ b.target = "") :
    (∃ m, (maybeSandboxInit b).1 = BootOutcome.abortedParam m)
    ∧ (maybeSandboxInit b).2 = [] := by
  have hne : ¬ b.sandboxInit ≠ "1" := by simp [hmode]
  rcases hmiss with h | h
  · constructor
    · exact ⟨"SANDBOX_ROOTFS missing", by simp [maybeSandboxInit, hne, h]⟩
    · simp [maybeSandboxInit, hne, h]
  · by_cases hr : b.rootfs = ""
    · constructor
      · exact ⟨"SANDBOX_ROOTFS missing", by simp [maybeSandboxInit, hne, hr]⟩
      · simp [maybeSandboxInit, hne, hr]
    · constructor
      · exact ⟨"SANDBOX_TARGET missing", by simp [maybeSandboxInit, hne, hr, h]⟩
      · simp [maybeSandboxInit, hne, hr, h]

/-- C9 witness: the bootstrap environment with the marker set and an empty
rootfs aborts on the parameter check with an empty step trace. -/
theorem boot_param_abort_witness :
    (∃ m, (maybeSandboxInit bootEnvMissingRootfs).1 = BootOutcome.abortedParam m)
    ∧ (maybeSandboxInit bootEnvMissingRootfs).2 = [] :=
  boot_param_abort bootEnvMissingRootfs rfl (Or.inl rfl)

/-- C10: must aborts by panic on every error — its fatal branch is
unreachable — and consequently the two cgroup deletions deferred before
the spawn steps still execute when a spawn fails. -/
theorem must_panic_cleanup :
    (∀ s : String, must (some s) = GoControl.panicked s)
    ∧ ∀ env : RunEnv, createsOk env = true →
        env.spawnPlayerOk = false ∨ env.spawnJudgeOk = false →
        Act.deleteCgroup "guess_judge" ∈ runMain env
        ∧ Act.deleteCgroup "guess_player" ∈ runMain env :=
  ⟨fun _ => rfl, fun env h _ => deletes_run_of_creates env h⟩

/-- C10 witness: must panics on the concrete spawn error, and the run whose
judge spawn fails still deletes both cgroups. -/
theorem must_panic_cleanup_witness :
    must (some "spawn judge") = GoControl.panicked "spawn judge"
    ∧ (Act.deleteCgroup "guess_judge" ∈ runMain envSpawnJudgeFails
       ∧ Act.deleteCgroup "guess_player" ∈ runMain envSpawnJudgeFails) :=
  ⟨must_panic_cleanup.1 "spawn judge",
   must_panic_cleanup.2 envSpawnJudgeFails rfl (Or.inr rfl)⟩

end Hustoj
